import Mathlib

/-!
Shallow embedding of the EduTrack email delivery pipeline:
the transactional outbox (`EmailOutbox` rows, repository operations
`enqueue` / `mark_sent` / `mark_failed` / `get_pending`), the enqueue path
(`MessageService.enqueue_email`), the relay (`process_message` in
`notifier/main.py`) and the graceful-degradation cache
(`infrastructure/cache/redis.py`).

Machine integers do not appear; ids are modelled as strings (UUIDs are
opaque), timestamps as natural numbers.  Effectful calls to the database,
the broker and the SMTP transport are modelled by environments that record,
per call site, whether the call succeeds or raises and with which error
text; the relay and enqueue functions thread the outbox table (a list of
rows) explicitly and return the resulting table together with the observable
effects (transport invocations, backoff sleeps, ack/exception outcome).
-/

/-- `MessageDeliveryStatus` enum from `infrastructure/db/models.py`. -/
inductive MessageDeliveryStatus
  | pending
  | sent
  | failed
deriving DecidableEq, Repr

/-- One row of the `email_outbox` table (`EmailOutbox` in
`infrastructure/db/models.py`).  Column defaults mirror the model:
`status=pending`, `retries=0`, `last_error=NULL`, `sent_at=NULL`. -/
structure EmailOutbox where
  id : String
  message_id : String
  recipients : List String
  subject : String
  body : String
  status : MessageDeliveryStatus := MessageDeliveryStatus.pending
  retries : Nat := 0
  last_error : Option String := none
  created_at : Nat := 0
  sent_at : Option Nat := none
deriving DecidableEq, Repr

namespace SqlAlchemyEmailOutboxRepository

/-- `SqlAlchemyEmailOutboxRepository.enqueue`: builds a new row with the
model defaults and adds it to the table; returns the row and the new table.
`newId` stands for the UUID the database assigns, `now` for the
`created_at` default. -/
def enqueue (store : List EmailOutbox) (newId : String) (now : Nat)
    (message_id : String) (recipients : List String) (subject body : String) :
    EmailOutbox × List EmailOutbox :=
  let outbox : EmailOutbox :=
    { id := newId, message_id := message_id, recipients := recipients,
      subject := subject, body := body, created_at := now }
  (outbox, store ++ [outbox])

/-- `SqlAlchemyEmailOutboxRepository.mark_sent`:
`UPDATE email_outbox SET status=sent, sent_at=now(), last_error=NULL
WHERE id = outbox_id`. -/
def mark_sent (store : List EmailOutbox) (outbox_id : String) (now : Nat) :
    List EmailOutbox :=
  store.map fun e =>
    if e.id = outbox_id then
      { e with status := MessageDeliveryStatus.sent, sent_at := some now,
               last_error := none }
    else e

/-- `SqlAlchemyEmailOutboxRepository.mark_failed`:
`UPDATE email_outbox SET status=failed, retries=retries+1, last_error=error
WHERE id = outbox_id`. -/
def mark_failed (store : List EmailOutbox) (outbox_id : String) (error : String) :
    List EmailOutbox :=
  store.map fun e =>
    if e.id = outbox_id then
      { e with status := MessageDeliveryStatus.failed,
               retries := e.retries + 1, last_error := some error }
    else e

/-- `SqlAlchemyEmailOutboxRepository.get_pending`:
`SELECT * FROM email_outbox WHERE id = outbox_id` (first row or None).
Faithful to the source: despite its name it does NOT filter on status. -/
def get_pending (store : List EmailOutbox) (outbox_id : String) :
    Option EmailOutbox :=
  store.find? fun e => e.id = outbox_id

end SqlAlchemyEmailOutboxRepository

/-- A transport invocation: the arguments `process_message` passes to
`send_email(entry.recipients, entry.subject, entry.body)`. -/
structure SendCall where
  recipients : List String
  subject : String
  body : String
deriving DecidableEq, Repr

/-- The broker message body as seen by `process_message`:
either `json.loads` raises (`invalidJson` with the decode error text), or it
yields a dict whose `outbox_id` key is absent (`none`) or holds a string.
Python falsiness of an empty string is handled in `process_message`. -/
inductive Payload
  | invalidJson (err : String)
  | json (outbox_id : Option String)
deriving DecidableEq, Repr

/-- Outcomes of the effectful calls made by one run of `process_message`:
whether `repo.get_pending` raises (record store unreachable), and per
attempt number, whether `send_email` raises and whether
`repo.mark_sent` + `session.commit` raise; finally whether
`repo.mark_failed` + `session.commit` raise in the exhaustion branch.
`none` means the call succeeds, `some e` that it raises with text `e`. -/
structure RelayEnv where
  loadRaises : Option String
  sendRaises : Nat → Option String
  markSentRaises : Nat → Option String
  markFailedRaises : Option String

/-- Broker-level outcome of `process_message`: the `message.process()`
context exits normally (the notification is acknowledged) or an exception
propagates (the notification is not acknowledged). -/
inductive Outcome
  | acked
  | exn (err : String)
deriving DecidableEq, Repr

/-- Observable result of one `process_message` run: broker outcome, the
outbox table afterwards, the transport invocations made (in order), and the
backoff sleeps performed (in seconds, in order). -/
structure RelayResult where
  outcome : Outcome
  store : List EmailOutbox
  sends : List SendCall
  sleeps : List Nat
deriving DecidableEq, Repr

/-- The `for attempt in range(1, max_retries + 1)` retry loop of
`process_message` (notifier/main.py lines 47-75).  `fuel` counts the
iterations still available (the loop starts with `attempt = 1` and
`fuel = max_retries`); when the range is exhausted control falls out of the
loop and the message is acknowledged.  Each iteration invokes the transport
with the entry's snapshot; on success it marks the entry sent and returns
(acknowledge); on failure it sleeps `2 ^ attempt` and retries while
`attempt < max_retries`, and on the last attempt marks the entry failed
with the last error text and still acknowledges — unless that write itself
raises, in which case the exception propagates. -/
def attemptLoop (env : RelayEnv) (entry : EmailOutbox) (now : Nat)
    (max_retries : Nat) :
    Nat → Nat → List EmailOutbox → List SendCall → List Nat → RelayResult
  | _, 0, store, sends, sleeps =>
      { outcome := Outcome.acked, store := store, sends := sends, sleeps := sleeps }
  | attempt, fuel + 1, store, sends, sleeps =>
      let sends1 := sends ++ [⟨entry.recipients, entry.subject, entry.body⟩]
      match env.sendRaises attempt, env.markSentRaises attempt with
      | none, none =>
          { outcome := Outcome.acked,
            store := SqlAlchemyEmailOutboxRepository.mark_sent store entry.id now,
            sends := sends1, sleeps := sleeps }
      | none, some e =>
          if attempt < max_retries then
            attemptLoop env entry now max_retries (attempt + 1) fuel store sends1
              (sleeps ++ [2 ^ attempt])
          else
            match env.markFailedRaises with
            | none =>
                { outcome := Outcome.acked,
                  store := SqlAlchemyEmailOutboxRepository.mark_failed store entry.id e,
                  sends := sends1, sleeps := sleeps }
            | some e2 =>
                { outcome := Outcome.exn e2, store := store,
                  sends := sends1, sleeps := sleeps }
      | some err, _ =>
          if attempt < max_retries then
            attemptLoop env entry now max_retries (attempt + 1) fuel store sends1
              (sleeps ++ [2 ^ attempt])
          else
            match env.markFailedRaises with
            | none =>
                { outcome := Outcome.acked,
                  store := SqlAlchemyEmailOutboxRepository.mark_failed store entry.id err,
                  sends := sends1, sleeps := sleeps }
            | some e2 =>
                { outcome := Outcome.exn e2, store := store,
                  sends := sends1, sleeps := sleeps }

/-- `process_message` (notifier/main.py lines 25-82).  Parses the payload
(a `json.loads` failure propagates out of `message.process()`, so the
notification is not acknowledged), drops messages without a truthy
`outbox_id` (acknowledged), loads the entry (`get_pending`; a raise
propagates), drops messages whose entry is absent (acknowledged), and runs
the retry loop. -/
def process_message (env : RelayEnv) (store : List EmailOutbox)
    (payload : Payload) (now : Nat) (max_retries : Nat := 3) : RelayResult :=
  match payload with
  | Payload.invalidJson err =>
      { outcome := Outcome.exn err, store := store, sends := [], sleeps := [] }
  | Payload.json none =>
      { outcome := Outcome.acked, store := store, sends := [], sleeps := [] }
  | Payload.json (some outbox_id) =>
      if outbox_id = "" then
        { outcome := Outcome.acked, store := store, sends := [], sleeps := [] }
      else
        match env.loadRaises with
        | some e =>
            { outcome := Outcome.exn e, store := store, sends := [], sleeps := [] }
        | none =>
            match SqlAlchemyEmailOutboxRepository.get_pending store outbox_id with
            | none =>
                { outcome := Outcome.acked, store := store, sends := [], sleeps := [] }
            | some entry =>
                attemptLoop env entry now max_retries 1 max_retries store [] []

/-- A row of the `messages` table, restricted to the fields
`MessageService.enqueue_email` reads (`message.subject`, `message.body`). -/
structure Message where
  id : String
  subject : String
  body : String
deriving DecidableEq, Repr

/-- Outcomes of the effectful calls made by `MessageService.enqueue_email`:
whether `publisher.publish_outbox` raises, and whether the
`mark_failed` + `commit` in its exception handler raise (in which case the
session is rolled back). -/
structure EnqueueEnv where
  publishRaises : Option String
  markFailedRaises : Bool

/-- What `enqueue_email` returns to the HTTP caller: the outbox entry, or
an `HTTPException` with status code and detail. -/
inductive EnqueueResult
  | ok (entry : EmailOutbox)
  | httpError (code : Nat) (detail : String)
deriving DecidableEq, Repr

/-- Observable result of one `enqueue_email` call: the caller-visible
result, the outbox table afterwards, and the outbox ids successfully
published to the broker. -/
structure EnqueueOutcome where
  result : EnqueueResult
  store : List EmailOutbox
  published : List String
deriving DecidableEq, Repr

/-- `MessageService.enqueue_email` (application/messages.py lines 30-62).
Looks up the message (404 if absent), persists a new outbox entry and
commits, then publishes the entry id to the broker.  If publishing raises,
the entry is marked failed with the publish error text and committed (or,
if that write itself raises, rolled back, leaving the entry pending), and a
503 service-unavailable error is raised to the caller. -/
def MessageService.enqueue_email (env : EnqueueEnv) (messages : List Message)
    (store : List EmailOutbox) (newId : String) (now : Nat)
    (message_id : String) (recipients_emails : List String) : EnqueueOutcome :=
  match messages.find? fun m => m.id = message_id with
  | none =>
      { result := EnqueueResult.httpError 404 "Message not found",
        store := store, published := [] }
  | some message =>
      let res := SqlAlchemyEmailOutboxRepository.enqueue store newId now
        message_id recipients_emails message.subject message.body
      let outbox_entry := res.1
      let store1 := res.2
      match env.publishRaises with
      | none =>
          { result := EnqueueResult.ok outbox_entry, store := store1,
            published := [outbox_entry.id] }
      | some e =>
          let error_msg := "Ошибка публикации в RabbitMQ: " ++ e
          if env.markFailedRaises then
            { result := EnqueueResult.httpError 503
                "Сервис очереди временно недоступен. Сообщение сохранено и будет обработано позже.",
              store := store1, published := [] }
          else
            { result := EnqueueResult.httpError 503
                "Сервис очереди временно недоступен. Сообщение сохранено и будет обработано позже.",
              store := SqlAlchemyEmailOutboxRepository.mark_failed store1
                outbox_entry.id error_msg,
              published := [] }

/-- Failure of an underlying Redis client call
(`redis.exceptions.ConnectionError`, other `RedisError`, or any other
exception), with its message. -/
inductive CacheErr
  | conn (e : String)
  | redis (e : String)
  | other (e : String)
deriving DecidableEq, Repr

/-- What a successful `redis.get` yields: no value, a value whose JSON
decodes, or a value whose JSON decoding raises. -/
inductive CacheRaw
  | absent
  | valid (v : String)
  | corrupt
deriving DecidableEq, Repr

/-- `get_cache` (infrastructure/cache/redis.py lines 18-39): the raw client
call either succeeds with `CacheRaw` or raises `CacheErr`.  Every except
branch returns `None`; a corrupt value is deleted and reported as a miss.
The `Except` result type records whether an exception escapes the function
(it never does). -/
def get_cache (g : Except CacheErr CacheRaw) : Except CacheErr (Option String) :=
  match g with
  | Except.ok CacheRaw.absent => Except.ok none
  | Except.ok (CacheRaw.valid v) => Except.ok (some v)
  | Except.ok CacheRaw.corrupt => Except.ok none
  | Except.error (CacheErr.conn _) => Except.ok none
  | Except.error (CacheErr.redis _) => Except.ok none
  | Except.error (CacheErr.other _) => Except.ok none

/-- `set_cache` (infrastructure/cache/redis.py lines 42-49): the raw
`redis.set` either succeeds or raises; every except branch logs and
returns normally. -/
def set_cache (s : Except CacheErr Unit) : Except CacheErr Unit :=
  match s with
  | Except.ok _ => Except.ok ()
  | Except.error (CacheErr.conn _) => Except.ok ()
  | Except.error (CacheErr.redis _) => Except.ok ()
  | Except.error (CacheErr.other _) => Except.ok ()

/-- `invalidate` (infrastructure/cache/redis.py lines 52-59): the raw
`redis.delete` either succeeds or raises; every except branch logs and
returns normally. -/
def invalidate (d : Except CacheErr Unit) : Except CacheErr Unit :=
  match d with
  | Except.ok _ => Except.ok ()
  | Except.error (CacheErr.conn _) => Except.ok ()
  | Except.error (CacheErr.redis _) => Except.ok ()
  | Except.error (CacheErr.other _) => Except.ok ()

/-- A concrete pending outbox row used to exercise the relay. -/
def sampleEntry : EmailOutbox :=
  { id := "e1", message_id := "m1", recipients := ["a@x.com"],
    subject := "Hi", body := "Body" }

/-- A concrete row already in `sent` status (`sent_at = 100`). -/
def sampleSentEntry : EmailOutbox :=
  { sampleEntry with status := MessageDeliveryStatus.sent, sent_at := some 100 }

/-- A concrete originating message row. -/
def sampleMessage : Message := { id := "m1", subject := "Hi", body := "Body" }

/-- Relay effects: everything succeeds. -/
def envOk : RelayEnv := ⟨none, fun _ => none, fun _ => none, none⟩

/-- Relay effects: every transport attempt raises. -/
def envAllFail : RelayEnv := ⟨none, fun _ => some "boom", fun _ => none, none⟩

/-- Relay effects: attempt 1 raises in the transport, later attempts
succeed. -/
def envFailThenOk : RelayEnv :=
  ⟨none, fun i => if i = 1 then some "t1" else none, fun _ => none, none⟩

/-- Relay effects: the record store is unreachable when loading the
entry. -/
def envLoadFail : RelayEnv := ⟨some "db down", fun _ => none, fun _ => none, none⟩

/-- Relay effects: attempt 1 sends but the status write raises; later
attempts raise in the transport; the final failed-write succeeds. -/
def envCommitFail : RelayEnv :=
  ⟨none, fun i => if i = 1 then none else some "t2",
   fun i => if i = 1 then some "commit fail" else none, none⟩

/-- Relay effects: every transport send fails and the record store is
unreachable for the final failed-write. -/
def envStoreDown : RelayEnv :=
  ⟨none, fun _ => some "smtp down", fun _ => none, some "db down"⟩

open SqlAlchemyEmailOutboxRepository in
/-- `mark_failed` commutes with lookup: the row found by id after
`mark_failed` is the row found before, with the failed-update applied. -/
theorem get_pending_mark_failed (store : List EmailOutbox) (oid err : String) :
    get_pending (mark_failed store oid err) oid =
      (get_pending store oid).map fun x =>
        { x with status := MessageDeliveryStatus.failed,
                 retries := x.retries + 1, last_error := some err } := by
  induction store with
  | nil => rfl
  | cons a l ih =>
    by_cases h : a.id = oid
    · simp [get_pending, mark_failed, List.find?_cons, h]
    · simp only [get_pending, mark_failed, List.map_cons, if_neg h]
      rw [List.find?_cons_of_neg, List.find?_cons_of_neg]
      · exact ih
      · simp [h]
      · simp [h]

open SqlAlchemyEmailOutboxRepository in
/-- `mark_sent` commutes with lookup: the row found by id after
`mark_sent` is the row found before, with the sent-update applied. -/
theorem get_pending_mark_sent (store : List EmailOutbox) (oid : String) (now : Nat) :
    get_pending (mark_sent store oid now) oid =
      (get_pending store oid).map fun x =>
        { x with status := MessageDeliveryStatus.sent,
                 sent_at := some now, last_error := none } := by
  induction store with
  | nil => rfl
  | cons a l ih =>
    by_cases h : a.id = oid
    · simp [get_pending, mark_sent, List.find?_cons, h]
    · simp only [get_pending, mark_sent, List.map_cons] at *
      simp only [if_neg h]
      rw [List.find?_cons_of_neg, List.find?_cons_of_neg]
      · exact ih
      · simp [h]
      · simp [h]

open SqlAlchemyEmailOutboxRepository in
/-- Looking up a freshly appended row whose id is not used in the table
finds exactly that row. -/
theorem get_pending_append_new (store : List EmailOutbox) (entry : EmailOutbox)
    (h : ∀ x ∈ store, x.id ≠ entry.id) :
    get_pending (store ++ [entry]) entry.id = some entry := by
  induction store with
  | nil => simp [get_pending]
  | cons a l ih =>
    have ha : a.id ≠ entry.id := h a (by simp)
    simp only [get_pending, List.cons_append]
    rw [List.find?_cons_of_neg]
    · exact ih fun x hx => h x (by simp [hx])
    · simp [ha]

open SqlAlchemyEmailOutboxRepository in
/-- Exhaustion run of the retry loop: if every remaining attempt's transport
send raises (`f i` the error text of attempt `i`), the loop walks through
all attempts, sleeping `2 ^ i` after each non-final one, and ends in the
`mark_failed` branch with the last attempt's error — acknowledged when that
write succeeds, an escaping exception when it raises. -/
theorem attemptLoop_all_fail (env : RelayEnv) (entry : EmailOutbox) (now N : Nat)
    (f : Nat → String) :
    ∀ (fuel a : Nat) (store : List EmailOutbox) (sends : List SendCall)
      (sleeps : List Nat),
      a + fuel = N + 1 → 1 ≤ a → a ≤ N →
      (∀ i, a ≤ i → i ≤ N → env.sendRaises i = some (f i)) →
      attemptLoop env entry now N a fuel store sends sleeps =
        match env.markFailedRaises with
        | none =>
            { outcome := Outcome.acked,
              store := mark_failed store entry.id (f N),
              sends := sends ++ List.replicate fuel
                ⟨entry.recipients, entry.subject, entry.body⟩,
              sleeps := sleeps ++ (List.range' a (fuel - 1)).map (2 ^ ·) }
        | some e2 =>
            { outcome := Outcome.exn e2, store := store,
              sends := sends ++ List.replicate fuel
                ⟨entry.recipients, entry.subject, entry.body⟩,
              sleeps := sleeps ++ (List.range' a (fuel - 1)).map (2 ^ ·) } := by
  intro fuel
  induction fuel with
  | zero =>
    intro a store sends sleeps h1 h2 h3 _
    omega
  | succ fuel ih =>
    intro a store sends sleeps h1 h2 h3 hfail
    have hs : env.sendRaises a = some (f a) := hfail a le_rfl (by omega)
    rw [attemptLoop, hs]
    by_cases hlt : a < N
    · simp only [if_pos hlt]
      have hfuel : 1 ≤ fuel := by omega
      obtain ⟨m, rfl⟩ : ∃ m, fuel = m + 1 := ⟨fuel - 1, by omega⟩
      rw [ih (a + 1) store
        (sends ++ [(⟨entry.recipients, entry.subject, entry.body⟩ : SendCall)])
        (sleeps ++ [2 ^ a]) (by omega) (by omega) (by omega)
        (fun i hi₁ hi₂ => hfail i (by omega) hi₂)]
      cases env.markFailedRaises <;>
        simp [List.append_assoc, List.replicate_succ, List.range'_succ]
    · have ha : a = N := by omega
      have hf0 : fuel = 0 := by omega
      subst ha hf0
      simp only [if_neg hlt]
      cases env.markFailedRaises <;> simp [List.range']

open SqlAlchemyEmailOutboxRepository in
/-- First-success run of the retry loop: if every attempt before `k` fails
(transport raise or `mark_sent`/commit raise) and attempt `k` fully
succeeds, the loop performs exactly the attempts up to `k`, sleeping
`2 ^ i` after each failed one, marks the entry sent and acknowledges. -/
theorem attemptLoop_first_success (env : RelayEnv) (entry : EmailOutbox)
    (now N k : Nat) (hkN : k ≤ N)
    (hsucc : env.sendRaises k = none) (hms : env.markSentRaises k = none) :
    ∀ (fuel a : Nat) (store : List EmailOutbox) (sends : List SendCall)
      (sleeps : List Nat),
      a + fuel = N + 1 → 1 ≤ a → a ≤ k →
      (∀ i, a ≤ i → i < k →
        env.sendRaises i ≠ none ∨ env.markSentRaises i ≠ none) →
      attemptLoop env entry now N a fuel store sends sleeps =
        { outcome := Outcome.acked,
          store := mark_sent store entry.id now,
          sends := sends ++ List.replicate (k - a + 1)
            ⟨entry.recipients, entry.subject, entry.body⟩,
          sleeps := sleeps ++ (List.range' a (k - a)).map (2 ^ ·) } := by
  intro fuel
  induction fuel with
  | zero =>
    intro a store sends sleeps h1 h2 h3 _
    omega
  | succ fuel ih =>
    intro a store sends sleeps h1 h2 h3 hfail
    by_cases hak : a = k
    · subst hak
      rw [attemptLoop, hsucc, hms]
      simp [List.range']
    · have hlt : a < k := by omega
      have hltN : a < N := by omega
      have step :
          attemptLoop env entry now N a (fuel + 1) store sends sleeps =
            attemptLoop env entry now N (a + 1) fuel store
              (sends ++ [⟨entry.recipients, entry.subject, entry.body⟩])
              (sleeps ++ [2 ^ a]) := by
        rcases hfail a le_rfl hlt with hsa | hmsa
        · obtain ⟨err, herr⟩ : ∃ err, env.sendRaises a = some err := by
            cases hsend : env.sendRaises a
            · exact absurd hsend hsa
            · exact ⟨_, rfl⟩
          rw [attemptLoop, herr]
          simp [if_pos hltN]
        · cases hsend : env.sendRaises a with
          | none =>
            obtain ⟨e, he⟩ : ∃ e, env.markSentRaises a = some e := by
              cases hm : env.markSentRaises a
              · exact absurd hm hmsa
              · exact ⟨_, rfl⟩
            rw [attemptLoop, hsend, he]
            simp [if_pos hltN]
          | some err =>
            rw [attemptLoop, hsend]
            simp [if_pos hltN]
      rw [step, ih (a + 1) store
        (sends ++ [(⟨entry.recipients, entry.subject, entry.body⟩ : SendCall)])
        (sleeps ++ [2 ^ a]) (by omega) (by omega) (by omega)
        (fun i hi₁ hi₂ => hfail i (by omega) hi₂)]
      have hka : k - a = (k - (a + 1)) + 1 := by omega
      simp [List.append_assoc, hka, List.replicate_succ, List.range'_succ]

/-- The retry loop performs at most `fuel` additional transport
invocations. -/
theorem attemptLoop_sends_le (env : RelayEnv) (entry : EmailOutbox)
    (now N : Nat) :
    ∀ (fuel a : Nat) (store : List EmailOutbox) (sends : List SendCall)
      (sleeps : List Nat),
      (attemptLoop env entry now N a fuel store sends sleeps).sends.length ≤
        sends.length + fuel := by
  intro fuel
  induction fuel with
  | zero =>
    intro a store sends sleeps
    simp [attemptLoop]
  | succ fuel ih =>
    intro a store sends sleeps
    rw [attemptLoop]
    cases hsa : env.sendRaises a with
    | none =>
      cases hms : env.markSentRaises a with
      | none => simp
      | some e =>
        by_cases hlt : a < N
        · simp only [if_pos hlt]
          calc (attemptLoop env entry now N (a + 1) fuel store
                  (sends ++ [(⟨entry.recipients, entry.subject, entry.body⟩ : SendCall)])
                  (sleeps ++ [2 ^ a])).sends.length
              ≤ (sends ++ [(⟨entry.recipients, entry.subject, entry.body⟩ : SendCall)]).length
                  + fuel := ih _ _ _ _
            _ ≤ sends.length + (fuel + 1) := by simp <;> omega
        · simp only [if_neg hlt]
          cases env.markFailedRaises <;> simp
    | some err =>
      by_cases hlt : a < N
      · simp only [if_pos hlt]
        calc (attemptLoop env entry now N (a + 1) fuel store
                (sends ++ [(⟨entry.recipients, entry.subject, entry.body⟩ : SendCall)])
                (sleeps ++ [2 ^ a])).sends.length
            ≤ (sends ++ [(⟨entry.recipients, entry.subject, entry.body⟩ : SendCall)]).length
                + fuel := ih _ _ _ _
          _ ≤ sends.length + (fuel + 1) := by simp <;> omega
      · simp only [if_neg hlt]
        cases env.markFailedRaises <;> simp

open SqlAlchemyEmailOutboxRepository in
/-- Over one whole `process_message` run, the transport is invoked at most
`max_retries` times. -/
theorem process_message_sends_le (env : RelayEnv) (store : List EmailOutbox)
    (payload : Payload) (now N : Nat) :
    (process_message env store payload now N).sends.length ≤ N := by
  cases payload with
  | invalidJson err => simp [process_message]
  | json oid =>
    cases oid with
    | none => simp [process_message]
    | some o =>
      by_cases h : o = ""
      · simp [process_message, h]
      · cases hl : env.loadRaises with
        | some e => simp [process_message, h, hl]
        | none =>
          cases hg : get_pending store o with
          | none => simp [process_message, h, hl, hg]
          | some entry =>
            have hle := attemptLoop_sends_le env entry now N N 1 store [] []
            simp only [process_message, h, hl, hg, if_neg h]
            simpa using hle

/-- C10: for every cache operation (get, set, delete) and every
connection/Redis/unexpected failure raised by the underlying client, the
operation swallows the error and degrades gracefully: `get_cache` never
lets an exception escape and returns `None` on any client failure, and
`set_cache` and `invalidate` return normally on any client failure. -/
theorem C10_cache_failures_swallowed :
    ∀ (g : Except CacheErr CacheRaw) (e : CacheErr),
      (∃ v, get_cache g = Except.ok v) ∧
      get_cache (Except.error e) = Except.ok none ∧
      set_cache (Except.error e) = Except.ok () ∧
      invalidate (Except.error e) = Except.ok () := by
  intro g e
  refine ⟨?_, ?_, ?_, ?_⟩
  · cases g with
    | ok r => cases r <;> exact ⟨_, rfl⟩
    | error err => cases err <;> exact ⟨_, rfl⟩
  · cases e <;> rfl
  · cases e <;> rfl
  · cases e <;> rfl

/-- C7 counterexample: a notification whose payload is not valid JSON is
NOT acknowledged — the `json.loads` error propagates out of
`process_message` — contradicting the claim that every malformed payload
is acknowledged and dropped. -/
theorem C7_counterexample :
    (process_message envOk [] (Payload.invalidJson "Expecting value") 0 3).outcome =
      Outcome.exn "Expecting value" ∧
    (process_message envOk [] (Payload.invalidJson "Expecting value") 0 3).outcome ≠
      Outcome.acked := by
  exact ⟨rfl, by decide⟩

open SqlAlchemyEmailOutboxRepository in
/-- C7 amended: a notification that parses as JSON but lacks a truthy
`outbox_id` (key absent or empty string), and a JSON notification whose
referenced entry is absent (record store reachable), are acknowledged and
dropped: no exception surfaces, the outbox table is unchanged and the
transport is never invoked.  (A payload that is not valid JSON instead
raises and is not acknowledged.) -/
theorem C7_amended_drop_unprocessable (env : RelayEnv)
    (store : List EmailOutbox) (payload : Payload) (now N : Nat)
    (h : payload = Payload.json none ∨ payload = Payload.json (some "") ∨
      ∃ oid, payload = Payload.json (some oid) ∧ oid ≠ "" ∧
        env.loadRaises = none ∧
        SqlAlchemyEmailOutboxRepository.get_pending store oid = none) :
    process_message env store payload now N =
      { outcome := Outcome.acked, store := store, sends := [], sleeps := [] } := by
  rcases h with h | h | ⟨oid, h, hne, hload, habs⟩
  · subst h; rfl
  · subst h; rfl
  · subst h
    simp [process_message, hne, hload, habs]

/-- C7 amended, witness at a concrete input: a notification referencing a
non-existent id is acknowledged with no state change. -/
theorem C7_amended_witness :
    SqlAlchemyEmailOutboxRepository.get_pending [sampleEntry] "zz" = none ∧
    process_message envOk [sampleEntry] (Payload.json (some "zz")) 0 3 =
      { outcome := Outcome.acked, store := [sampleEntry], sends := [], sleeps := [] } :=
  ⟨by decide, C7_amended_drop_unprocessable envOk [sampleEntry]
    (Payload.json (some "zz")) 0 3
    (Or.inr (Or.inr ⟨"zz", rfl, by decide, rfl, by decide⟩))⟩

/-- C9 counterexample: neither the service nor the repository validates
recipients, so an enqueue call with an empty recipients list creates an
OutboxEntry whose stored recipients list is empty — refuting the claim
that every created entry has non-empty recipients. -/
theorem C9_counterexample :
    (MessageService.enqueue_email ⟨none, false⟩ [sampleMessage] [] "e1" 0 "m1" []).store =
      [{ id := "e1", message_id := "m1", recipients := [],
         subject := "Hi", body := "Body" }] ∧
    ({ id := "e1", message_id := "m1", recipients := [],
       subject := "Hi", body := "Body" : EmailOutbox }).recipients = [] := by
  decide

/-- C9 amended: the enqueue operation stores exactly the caller-provided
recipients list and does not enforce non-emptiness; the stored list is
non-empty precisely when the caller passes a non-empty list. -/
theorem C9_amended_recipients_as_given (env : EnqueueEnv)
    (messages : List Message) (store : List EmailOutbox) (newId : String)
    (now : Nat) (message_id : String) (recipients_emails : List String)
    (msg : Message)
    (hfind : messages.find? (fun m => m.id = message_id) = some msg)
    (hpub : env.publishRaises = none) :
    ∃ entry : EmailOutbox,
      (MessageService.enqueue_email env messages store newId now message_id
        recipients_emails).result = EnqueueResult.ok entry ∧
      (MessageService.enqueue_email env messages store newId now message_id
        recipients_emails).store = store ++ [entry] ∧
      entry.recipients = recipients_emails ∧
      (recipients_emails ≠ [] → entry.recipients ≠ []) := by
  refine ⟨{ id := newId, message_id := message_id,
            recipients := recipients_emails, subject := msg.subject,
            body := msg.body, created_at := now }, ?_, ?_, rfl, fun h => h⟩ <;>
    simp [MessageService.enqueue_email, hfind, hpub,
      SqlAlchemyEmailOutboxRepository.enqueue]

/-- C9 amended, witness at a concrete input. -/
theorem C9_amended_witness :
    ([sampleMessage].find? (fun m => m.id = "m1") = some sampleMessage) ∧
    ∃ entry : EmailOutbox,
      (MessageService.enqueue_email ⟨none, false⟩ [sampleMessage] [] "e1" 0 "m1"
        ["a@x.com"]).result = EnqueueResult.ok entry ∧
      (MessageService.enqueue_email ⟨none, false⟩ [sampleMessage] [] "e1" 0 "m1"
        ["a@x.com"]).store = [] ++ [entry] ∧
      entry.recipients = ["a@x.com"] ∧
      (["a@x.com"] ≠ ([] : List String) → entry.recipients ≠ []) :=
  ⟨by decide, C9_amended_recipients_as_given ⟨none, false⟩ [sampleMessage] []
    "e1" 0 "m1" ["a@x.com"] sampleMessage (by decide) rfl⟩

/-- C1 counterexample: persisting succeeds, the broker publish raises, and
the caller does receive the 503 service-unavailable error — but the
persisted entry does NOT keep `status=pending`: the enqueue path itself
mutates it to `failed`, incrementing `retries` and setting `last_error`,
refuting the claim that the entry is left unmutated with status pending. -/
theorem C1_counterexample :
    (MessageService.enqueue_email ⟨some "conn refused", false⟩ [sampleMessage]
      [] "e1" 0 "m1" ["a@x.com"]).result =
      EnqueueResult.httpError 503
        "Сервис очереди временно недоступен. Сообщение сохранено и будет обработано позже." ∧
    SqlAlchemyEmailOutboxRepository.get_pending
      (MessageService.enqueue_email ⟨some "conn refused", false⟩ [sampleMessage]
        [] "e1" 0 "m1" ["a@x.com"]).store "e1" =
      some { id := "e1", message_id := "m1", recipients := ["a@x.com"],
             subject := "Hi", body := "Body",
             status := MessageDeliveryStatus.failed, retries := 1,
             last_error := some "Ошибка публикации в RabbitMQ: conn refused" } ∧
    MessageDeliveryStatus.failed ≠ MessageDeliveryStatus.pending := by
  decide

open SqlAlchemyEmailOutboxRepository in
/-- C1 amended: when persisting the OutboxEntry succeeds and the broker
publish raises, the caller receives the 503 service-unavailable
(DispatchUnavailable) error, nothing is published, and the entry is not
rolled back — but it does not stay pending: the enqueue path marks it
failed (status=failed, retries incremented to 1, last_error set to the
publish error text); only when that mark-failed write itself raises is it
rolled back, leaving the entry pending with retries and last_error
unchanged. -/
theorem C1_amended_publish_failure (env : EnqueueEnv) (messages : List Message)
    (store : List EmailOutbox) (newId : String) (now : Nat)
    (message_id : String) (recipients_emails : List String) (msg : Message)
    (e : String)
    (hfind : messages.find? (fun m => m.id = message_id) = some msg)
    (hpub : env.publishRaises = some e)
    (hfresh : ∀ x ∈ store, x.id ≠ newId) :
    let r := MessageService.enqueue_email env messages store newId now
      message_id recipients_emails
    let entry : EmailOutbox :=
      { id := newId, message_id := message_id,
        recipients := recipients_emails, subject := msg.subject,
        body := msg.body, created_at := now }
    r.result = EnqueueResult.httpError 503
      "Сервис очереди временно недоступен. Сообщение сохранено и будет обработано позже." ∧
    r.published = [] ∧
    (env.markFailedRaises = false →
      get_pending r.store newId =
        some { entry with
            status := MessageDeliveryStatus.failed, retries := 1,
            last_error := some ("Ошибка публикации в RabbitMQ: " ++ e) }) ∧
    (env.markFailedRaises = true →
      get_pending r.store newId = some entry ∧
      entry.status = MessageDeliveryStatus.pending ∧ entry.retries = 0 ∧
      entry.last_error = none) := by
  intro r entry
  have hid : entry.id = newId := rfl
  have hget : get_pending (store ++ [entry]) newId = some entry := by
    have := get_pending_append_new store entry (fun x hx => hfresh x hx)
    rwa [hid] at this
  cases hmf : env.markFailedRaises with
  | false =>
    refine ⟨?_, ?_, fun _ => ?_, fun hc => by simp [hmf] at hc⟩ <;>
      simp only [r, MessageService.enqueue_email, hfind, hpub, hmf,
        SqlAlchemyEmailOutboxRepository.enqueue, Bool.false_eq_true,
        if_false]
    rw [get_pending_mark_failed, hget]
    rfl
  | true =>
    refine ⟨?_, ?_, fun hc => by simp [hmf] at hc, fun _ => ⟨?_, rfl, rfl, rfl⟩⟩ <;>
      simp only [r, MessageService.enqueue_email, hfind, hpub, hmf,
        SqlAlchemyEmailOutboxRepository.enqueue, if_true]
    exact hget

/-- C1 amended, witness at a concrete input. -/
theorem C1_amended_witness :
    ([sampleMessage].find? (fun m => m.id = "m1") = some sampleMessage) ∧
    (let r := MessageService.enqueue_email ⟨some "conn refused", false⟩
        [sampleMessage] [] "e1" 0 "m1" ["a@x.com"]
     let entry : EmailOutbox :=
       { id := "e1", message_id := "m1",
         recipients := ["a@x.com"], subject := sampleMessage.subject,
         body := sampleMessage.body, created_at := 0 }
     r.result = EnqueueResult.httpError 503
       "Сервис очереди временно недоступен. Сообщение сохранено и будет обработано позже." ∧
     r.published = [] ∧
     ((⟨some "conn refused", false⟩ : EnqueueEnv).markFailedRaises = false →
       SqlAlchemyEmailOutboxRepository.get_pending r.store "e1" =
         some { entry with
             status := MessageDeliveryStatus.failed, retries := 1,
             last_error := some ("Ошибка публикации в RabbitMQ: " ++ "conn refused") }) ∧
     ((⟨some "conn refused", false⟩ : EnqueueEnv).markFailedRaises = true →
       SqlAlchemyEmailOutboxRepository.get_pending r.store "e1" = some entry ∧
       entry.status = MessageDeliveryStatus.pending ∧ entry.retries = 0 ∧
       entry.last_error = none)) :=
  ⟨by decide, C1_amended_publish_failure ⟨some "conn refused", false⟩
    [sampleMessage] [] "e1" 0 "m1" ["a@x.com"] sampleMessage "conn refused"
    (by decide) rfl (by intro x hx; simp at hx)⟩

/-- C2, code evaluated at the failing input: `get_pending` selects by id
only (no status filter), so a duplicate notification for an entry already
in `sent` status re-invokes the transport and overwrites `sent_at`
(100 becomes 200), contradicting the claimed idempotence. -/
theorem C2_duplicate_notification_mutates_sent_entry :
    sampleSentEntry.status = MessageDeliveryStatus.sent ∧
    sampleSentEntry.sent_at = some 100 ∧
    (process_message envOk [sampleSentEntry] (Payload.json (some "e1")) 200 3).sends =
      [{ recipients := ["a@x.com"], subject := "Hi", body := "Body" }] ∧
    (process_message envOk [sampleSentEntry] (Payload.json (some "e1")) 200 3).store =
      [{ sampleSentEntry with sent_at := some 200 }] := by
  decide

open SqlAlchemyEmailOutboxRepository in
/-- C3: infrastructure failures always escape `process_message`, so the
notification is not acknowledged and the outbox row is untouched: this
holds both when loading the entry raises and when, after every transport
attempt has failed, the final failed-write raises because the record store
is unreachable.  On the unchanged table, a later redelivery processed with
working infrastructure reaches `sent` normally. -/
theorem C3_infra_failures_propagate (env : RelayEnv)
    (store : List EmailOutbox) (oid : String) (entry : EmailOutbox)
    (now N : Nat) (e : String) (f : Nat → String)
    (hne : oid ≠ "") (hN : 1 ≤ N)
    (hfound : SqlAlchemyEmailOutboxRepository.get_pending store oid = some entry)
    (h : env.loadRaises = some e ∨
      (env.loadRaises = none ∧
       (∀ i, 1 ≤ i → i ≤ N → env.sendRaises i = some (f i)) ∧
       env.markFailedRaises = some e)) :
    (process_message env store (Payload.json (some oid)) now N).outcome =
      Outcome.exn e ∧
    (process_message env store (Payload.json (some oid)) now N).store = store ∧
    (∀ (env2 : RelayEnv) (now2 : Nat),
      env2.loadRaises = none → env2.sendRaises 1 = none →
      env2.markSentRaises 1 = none →
      (process_message env2 store (Payload.json (some oid)) now2 N).outcome =
        Outcome.acked ∧
      get_pending
        (process_message env2 store (Payload.json (some oid)) now2 N).store oid =
        some { entry with
            status := MessageDeliveryStatus.sent, sent_at := some now2,
            last_error := none }) := by
  have hid : entry.id = oid := by
    have := List.find?_some hfound
    simpa using this
  have rerun : ∀ (env2 : RelayEnv) (now2 : Nat),
      env2.loadRaises = none → env2.sendRaises 1 = none →
      env2.markSentRaises 1 = none →
      (process_message env2 store (Payload.json (some oid)) now2 N).outcome =
        Outcome.acked ∧
      get_pending
        (process_message env2 store (Payload.json (some oid)) now2 N).store oid =
        some { entry with
            status := MessageDeliveryStatus.sent, sent_at := some now2,
            last_error := none } := by
    intro env2 now2 h1 h2 h3
    have hrun := attemptLoop_first_success env2 entry now2 N 1 hN h2 h3 N 1
      store [] [] (by omega) le_rfl le_rfl (fun i hi₁ hi₂ => by omega)
    simp only [process_message, if_neg hne, h1, hfound, hrun]
    refine ⟨by simp, ?_⟩
    rw [show mark_sent store entry.id now2 = mark_sent store oid now2 by
      rw [hid]]
    rw [get_pending_mark_sent, hfound]
    rfl
  rcases h with hload | ⟨hload, hfail, hmf⟩
  · refine ⟨?_, ?_, rerun⟩ <;> simp [process_message, hne, hload]
  · have hrun := attemptLoop_all_fail env entry now N f N 1 store [] []
      (by omega) le_rfl hN (fun i hi₁ hi₂ => hfail i hi₁ hi₂)
    rw [hmf] at hrun
    refine ⟨?_, ?_, rerun⟩ <;>
      simp [process_message, hne, hload, hfound, hrun]

/-- C3, witness at a concrete input: the record store raises while loading
the entry; the exception propagates, the table is unchanged, and a clean
rerun marks the entry sent. -/
theorem C3_witness :
    envLoadFail.loadRaises = some "db down" ∧
    ((process_message envLoadFail [sampleEntry] (Payload.json (some "e1")) 5 3).outcome =
       Outcome.exn "db down" ∧
     (process_message envLoadFail [sampleEntry] (Payload.json (some "e1")) 5 3).store =
       [sampleEntry] ∧
     (∀ (env2 : RelayEnv) (now2 : Nat),
       env2.loadRaises = none → env2.sendRaises 1 = none →
       env2.markSentRaises 1 = none →
       (process_message env2 [sampleEntry] (Payload.json (some "e1")) now2 3).outcome =
         Outcome.acked ∧
       SqlAlchemyEmailOutboxRepository.get_pending
         (process_message env2 [sampleEntry] (Payload.json (some "e1")) now2 3).store "e1" =
         some { sampleEntry with
             status := MessageDeliveryStatus.sent, sent_at := some now2,
             last_error := none })) :=
  ⟨rfl, C3_infra_failures_propagate envLoadFail [sampleEntry] "e1" sampleEntry
    5 3 "db down" (fun _ => "") (by decide) (by decide) (by decide)
    (Or.inl rfl)⟩

open SqlAlchemyEmailOutboxRepository in
/-- C4: when all `N` delivery attempts of one consumption fail with
transport errors (`f i` the error text of attempt `i`) and the failed-write
succeeds, the entry is marked failed with `last_error` the text of the
last failure, `retries` is incremented by exactly 1 for the whole cycle,
and the notification is still acknowledged. -/
theorem C4_exhausted_cycle_marks_failed (env : RelayEnv)
    (store : List EmailOutbox) (oid : String) (entry : EmailOutbox)
    (now N : Nat) (f : Nat → String)
    (hne : oid ≠ "") (hN : 1 ≤ N)
    (hload : env.loadRaises = none)
    (hfound : SqlAlchemyEmailOutboxRepository.get_pending store oid = some entry)
    (hfail : ∀ i, 1 ≤ i → i ≤ N → env.sendRaises i = some (f i))
    (hmf : env.markFailedRaises = none)
    (hnonempty : f N ≠ "") :
    (process_message env store (Payload.json (some oid)) now N).outcome =
      Outcome.acked ∧
    get_pending
      (process_message env store (Payload.json (some oid)) now N).store oid =
      some { entry with
          status := MessageDeliveryStatus.failed,
          retries := entry.retries + 1, last_error := some (f N) } ∧
    (some (f N) : Option String) ≠ some "" ∧
    (some (f N) : Option String) ≠ none := by
  have hid : entry.id = oid := by simpa using List.find?_some hfound
  have hrun := attemptLoop_all_fail env entry now N f N 1 store [] []
    (by omega) le_rfl hN hfail
  rw [hmf] at hrun
  simp only [process_message, if_neg hne, hload, hfound, hrun]
  refine ⟨by simp, ?_, by simpa using hnonempty, by simp⟩
  rw [show mark_failed store entry.id (f N) = mark_failed store oid (f N) by
    rw [hid]]
  rw [get_pending_mark_failed, hfound]
  rfl

/-- C4, witness at a concrete input: three transport failures, entry marked
failed with the last error, retries bumped once, notification acked. -/
theorem C4_witness :
    (1 : Nat) ≤ 3 ∧ envAllFail.markFailedRaises = none ∧
    ((process_message envAllFail [sampleEntry] (Payload.json (some "e1")) 7 3).outcome =
       Outcome.acked ∧
     SqlAlchemyEmailOutboxRepository.get_pending
       (process_message envAllFail [sampleEntry] (Payload.json (some "e1")) 7 3).store
       "e1" =
       some { sampleEntry with
           status := MessageDeliveryStatus.failed,
           retries := sampleEntry.retries + 1, last_error := some "boom" } ∧
     (some "boom" : Option String) ≠ some "" ∧
     (some "boom" : Option String) ≠ none) :=
  ⟨by decide, rfl,
    C4_exhausted_cycle_marks_failed envAllFail [sampleEntry] "e1" sampleEntry
      7 3 (fun _ => "boom") (by decide) (by decide) rfl (by decide)
      (fun _ _ _ => rfl) rfl (by decide)⟩

open SqlAlchemyEmailOutboxRepository in
/-- C5: delivery is attempted at most `N` times per consumption (last
conjunct, for every run), and if the first fully successful attempt is
attempt `k`, the loop stops there: exactly `k` transport invocations, the
entry is marked sent with the timestamp and `last_error` cleared, the
sleeps are the doubling backoff `2^1, 2^2, ...` between consecutive
attempts, and the notification is acknowledged. -/
theorem C5_first_success_marks_sent (env : RelayEnv)
    (store : List EmailOutbox) (oid : String) (entry : EmailOutbox)
    (now N k : Nat)
    (hne : oid ≠ "") (hk1 : 1 ≤ k) (hkN : k ≤ N)
    (hload : env.loadRaises = none)
    (hfound : SqlAlchemyEmailOutboxRepository.get_pending store oid = some entry)
    (hbefore : ∀ i, 1 ≤ i → i < k →
      env.sendRaises i ≠ none ∨ env.markSentRaises i ≠ none)
    (hsucc : env.sendRaises k = none) (hms : env.markSentRaises k = none) :
    (process_message env store (Payload.json (some oid)) now N).outcome =
      Outcome.acked ∧
    get_pending
      (process_message env store (Payload.json (some oid)) now N).store oid =
      some { entry with
          status := MessageDeliveryStatus.sent, sent_at := some now,
          last_error := none } ∧
    (process_message env store (Payload.json (some oid)) now N).sends.length = k ∧
    (process_message env store (Payload.json (some oid)) now N).sleeps =
      (List.range' 1 (k - 1)).map (2 ^ ·) ∧
    (∀ (env2 : RelayEnv) (store2 : List EmailOutbox) (p2 : Payload) (now2 : Nat),
      (process_message env2 store2 p2 now2 N).sends.length ≤ N) := by
  have hid : entry.id = oid := by simpa using List.find?_some hfound
  have hrun := attemptLoop_first_success env entry now N k hkN hsucc hms N 1
    store [] [] (by omega) le_rfl hk1 (fun i h1 h2 => hbefore i h1 h2)
  simp only [process_message, if_neg hne, hload, hfound, hrun]
  refine ⟨by simp, ?_, ?_, by simp,
    fun env2 store2 p2 now2 => process_message_sends_le env2 store2 p2 now2 N⟩
  · rw [show mark_sent store entry.id now = mark_sent store oid now by
      rw [hid]]
    rw [get_pending_mark_sent, hfound]
    rfl
  · simp
    omega

/-- C5, witness at a concrete input: attempt 1 fails, attempt 2 succeeds
with `N = 3`: two transport invocations, one backoff sleep of 2 seconds,
entry marked sent at the given timestamp. -/
theorem C5_witness :
    (1 : Nat) ≤ 2 ∧ (2 : Nat) ≤ 3 ∧
    ((process_message envFailThenOk [sampleEntry] (Payload.json (some "e1")) 9 3).outcome =
       Outcome.acked ∧
     SqlAlchemyEmailOutboxRepository.get_pending
       (process_message envFailThenOk [sampleEntry] (Payload.json (some "e1")) 9 3).store
       "e1" =
       some { sampleEntry with
           status := MessageDeliveryStatus.sent, sent_at := some 9,
           last_error := none } ∧
     (process_message envFailThenOk [sampleEntry] (Payload.json (some "e1")) 9 3).sends.length = 2 ∧
     (process_message envFailThenOk [sampleEntry] (Payload.json (some "e1")) 9 3).sleeps =
       (List.range' 1 (2 - 1)).map (2 ^ ·)) := by
  have h := C5_first_success_marks_sent envFailThenOk [sampleEntry] "e1"
    sampleEntry 9 3 2 (by decide) (by decide) (by decide) rfl (by decide)
    (fun i h1 h2 => by
      have hi : i = 1 := by omega
      subst hi
      exact Or.inl (by decide))
    (by decide) (by decide)
  exact ⟨by decide, by decide, h.1, h.2.1, h.2.2.1, h.2.2.2.1⟩

open SqlAlchemyEmailOutboxRepository in
/-- C6: if the transport send of attempt 1 succeeds but the subsequent
status write (`mark_sent`/commit) raises, the per-attempt handler counts it
as a failed attempt: the transport is invoked again on later attempts (the
mail can be delivered more than once in one consumption), and when all
remaining attempts fail with transport errors the entry is marked failed
even though the mail was actually delivered on attempt 1. -/
theorem C6_post_send_write_failure_counts_as_attempt (env : RelayEnv)
    (store : List EmailOutbox) (oid : String) (entry : EmailOutbox)
    (now N : Nat) (f : Nat → String) (e1 : String)
    (hne : oid ≠ "") (hN : 2 ≤ N)
    (hload : env.loadRaises = none)
    (hfound : SqlAlchemyEmailOutboxRepository.get_pending store oid = some entry)
    (hsend1 : env.sendRaises 1 = none)
    (hmark1 : env.markSentRaises 1 = some e1)
    (hrest : ∀ i, 2 ≤ i → i ≤ N → env.sendRaises i = some (f i))
    (hmf : env.markFailedRaises = none) :
    (process_message env store (Payload.json (some oid)) now N).outcome =
      Outcome.acked ∧
    (process_message env store (Payload.json (some oid)) now N).sends.length = N ∧
    2 ≤ (process_message env store (Payload.json (some oid)) now N).sends.length ∧
    (process_message env store (Payload.json (some oid)) now N).sends.head? =
      some ⟨entry.recipients, entry.subject, entry.body⟩ ∧
    get_pending
      (process_message env store (Payload.json (some oid)) now N).store oid =
      some { entry with
          status := MessageDeliveryStatus.failed,
          retries := entry.retries + 1, last_error := some (f N) } := by
  have hid : entry.id = oid := by simpa using List.find?_some hfound
  obtain ⟨m, rfl⟩ : ∃ m, N = m + 1 := ⟨N - 1, by omega⟩
  have hm : 1 ≤ m := by omega
  have hrun2 := attemptLoop_all_fail env entry now (m + 1) f m 2 store
    [(⟨entry.recipients, entry.subject, entry.body⟩ : SendCall)] [2]
    (by omega) (by omega) (by omega) (fun i h1 h2 => hrest i h1 h2)
  rw [hmf] at hrun2
  have hstep : attemptLoop env entry now (m + 1) 1 (m + 1) store [] [] =
      attemptLoop env entry now (m + 1) 2 m store
        [(⟨entry.recipients, entry.subject, entry.body⟩ : SendCall)] [2] := by
    rw [attemptLoop, hsend1, hmark1]
    simp [show (1 : Nat) < m + 1 by omega]
  simp only [process_message, if_neg hne, hload, hfound, hstep, hrun2]
  refine ⟨by simp, by simp, by simp <;> omega, by simp, ?_⟩
  rw [show mark_failed store entry.id (f (m + 1)) =
        mark_failed store oid (f (m + 1)) by rw [hid]]
  rw [get_pending_mark_failed, hfound]
  rfl

/-- C6, witness at a concrete input: send succeeds on attempt 1 but the
status write raises; attempt 2 fails in the transport with `N = 2`; two
transport invocations, entry ends failed. -/
theorem C6_witness :
    envCommitFail.sendRaises 1 = none ∧
    envCommitFail.markSentRaises 1 = some "commit fail" ∧
    ((process_message envCommitFail [sampleEntry] (Payload.json (some "e1")) 4 2).outcome =
       Outcome.acked ∧
     (process_message envCommitFail [sampleEntry] (Payload.json (some "e1")) 4 2).sends.length = 2 ∧
     2 ≤ (process_message envCommitFail [sampleEntry] (Payload.json (some "e1")) 4 2).sends.length ∧
     (process_message envCommitFail [sampleEntry] (Payload.json (some "e1")) 4 2).sends.head? =
       some ⟨sampleEntry.recipients, sampleEntry.subject, sampleEntry.body⟩ ∧
     SqlAlchemyEmailOutboxRepository.get_pending
       (process_message envCommitFail [sampleEntry] (Payload.json (some "e1")) 4 2).store
       "e1" =
       some { sampleEntry with
           status := MessageDeliveryStatus.failed,
           retries := sampleEntry.retries + 1, last_error := some "t2" }) :=
  ⟨rfl, rfl,
    C6_post_send_write_failure_counts_as_attempt envCommitFail [sampleEntry]
      "e1" sampleEntry 4 2 (fun _ => "t2") "commit fail" (by decide)
      (by decide) rfl (by decide) (by decide) (by decide)
      (fun i h1 h2 => by
        have hi : i = 2 := by omega
        subst hi
        decide)
      rfl⟩

open SqlAlchemyEmailOutboxRepository in
/-- C8: a successful enqueue with a non-empty recipients list creates
exactly one OutboxEntry with `status=pending`, `retries=0`, `sent_at=None`,
snapshotting the recipients and the message's subject/body; at delivery
time the relay passes exactly that snapshot to the transport.
(`process_message` takes no message table at all, so later mutation of the
originating message cannot affect delivery.) -/
theorem C8_enqueue_snapshot_roundtrip (env : EnqueueEnv)
    (messages : List Message) (store : List EmailOutbox) (newId : String)
    (now : Nat) (message_id : String) (recipients_emails : List String)
    (msg : Message)
    (hfind : messages.find? (fun m => m.id = message_id) = some msg)
    (hpub : env.publishRaises = none)
    (hfresh : ∀ x ∈ store, x.id ≠ newId)
    (hnid : newId ≠ "")
    (hnonempty : recipients_emails ≠ []) :
    let r := MessageService.enqueue_email env messages store newId now
      message_id recipients_emails
    let entry : EmailOutbox :=
      { id := newId, message_id := message_id,
        recipients := recipients_emails, subject := msg.subject,
        body := msg.body, created_at := now }
    r.result = EnqueueResult.ok entry ∧
    r.store = store ++ [entry] ∧
    entry.status = MessageDeliveryStatus.pending ∧ entry.retries = 0 ∧
    entry.sent_at = none ∧
    entry.recipients = recipients_emails ∧ entry.subject = msg.subject ∧
    entry.body = msg.body ∧
    (∀ (env2 : RelayEnv) (now2 N : Nat), 1 ≤ N →
      env2.loadRaises = none → env2.sendRaises 1 = none →
      env2.markSentRaises 1 = none →
      (process_message env2 r.store (Payload.json (some newId)) now2 N).sends =
        [⟨recipients_emails, msg.subject, msg.body⟩]) := by
  intro r entry
  have hr : r.store = store ++ [entry] := by
    simp [r, MessageService.enqueue_email, hfind, hpub,
      SqlAlchemyEmailOutboxRepository.enqueue]
  have hget : get_pending (store ++ [entry]) newId = some entry :=
    get_pending_append_new store entry fun x hx => hfresh x hx
  refine ⟨?_, hr, rfl, rfl, rfl, rfl, rfl, rfl, ?_⟩
  · simp [r, MessageService.enqueue_email, hfind, hpub,
      SqlAlchemyEmailOutboxRepository.enqueue]
  · intro env2 now2 N hN h1 h2 h3
    have hrun := attemptLoop_first_success env2 entry now2 N 1 hN h2 h3 N 1
      (store ++ [entry]) [] [] (by omega) le_rfl le_rfl
      (fun i hi1 hi2 => by omega)
    rw [hr]
    simp only [process_message, if_neg hnid, h1, hget, hrun]
    simp

/-- C8, witness at a concrete input. -/
theorem C8_witness :
    (["a@x.com"] ≠ ([] : List String)) ∧
    (let r := MessageService.enqueue_email ⟨none, false⟩ [sampleMessage] []
        "e1" 0 "m1" ["a@x.com"]
     let entry : EmailOutbox :=
       { id := "e1", message_id := "m1", recipients := ["a@x.com"],
         subject := sampleMessage.subject, body := sampleMessage.body,
         created_at := 0 }
     r.result = EnqueueResult.ok entry ∧
     r.store = [] ++ [entry] ∧
     (process_message envOk r.store (Payload.json (some "e1")) 5 3).sends =
       [⟨["a@x.com"], sampleMessage.subject, sampleMessage.body⟩]) := by
  have h := C8_enqueue_snapshot_roundtrip ⟨none, false⟩ [sampleMessage] []
    "e1" 0 "m1" ["a@x.com"] sampleMessage (by decide) rfl
    (by intro x hx; simp at hx) (by decide) (by decide)
  exact ⟨by decide, h.1, h.2.1,
    h.2.2.2.2.2.2.2.2 envOk 5 3 (by decide) rfl rfl rfl⟩
